import Mathlib

/-!
Verification of the proxy-path-aware routing and request-authentication layer
of the claude-code-hub repository.

JavaScript strings are modelled as lists of characters (`JStr`); the functions
below are shallow embeddings of the corresponding TypeScript functions in
`src/proxy.ts`, `src/lib/utils/base-path.ts` (cached variant),
`src/lib/utils/fetch-interceptor.ts` and `src/lib/utils/navigation-interceptor.ts`.
-/

namespace Hub

/-! Lemmas about the `cleanBasePath` fold. -/

/-- A JavaScript string, modelled as a list of characters. -/
abbrev JStr := List Char

/-- Convert a Lean string literal into the `JStr` model. -/
def jstr (s : String) : JStr := s.toList

/-- JS `haystack.indexOf(needle)`: character index of the first occurrence of
`needle` in the haystack, `none` when there is no occurrence. -/
def jsIndexOf (needle : JStr) : JStr → Option Nat
  | [] => if needle.isPrefixOf [] then some 0 else none
  | c :: rest =>
    if needle.isPrefixOf (c :: rest) then some 0
    else (jsIndexOf needle rest).map (· + 1)

/-- The five supported locale codes (`SUPPORTED_LOCALES` of base-path module;
the same enumeration appears as `routing.locales` and in the inline scripts). -/
def SUPPORTED_LOCALES : List JStr :=
  [jstr ("zh-CN"), jstr ("zh-TW"), jstr ("en"), jstr ("ja"), jstr ("ru")]

/-- `APP_ROUTES` of the base-path module: known application routes that must
never be part of the base path. -/
def APP_ROUTES : List JStr :=
  [jstr ("/dashboard"), jstr ("/settings"), jstr ("/login"), jstr ("/logout"),
   jstr ("/my-usage"), jstr ("/usage-doc"), jstr ("/internal"), jstr ("/api"),
   jstr ("/v1"), jstr ("/v1beta"), jstr ("/_next")]

/-- One iteration of the `APP_ROUTES` loop of `cleanBasePath`: keep the
earliest first-occurrence index found so far. -/
def cleanStep (basePath : JStr) (cur : Option Nat) (route : JStr) : Option Nat :=
  match jsIndexOf route basePath with
  | none => cur
  | some idx =>
    match cur with
    | none => some idx
    | some c => if idx < c then some idx else some c

/-- One iteration of the locale loop of `cleanBasePath`: the first occurrence
of `/<locale>` is considered only when it is followed by `/` or the end of the
string. -/
def cleanStepLocale (basePath : JStr) (cur : Option Nat) (locale : JStr) : Option Nat :=
  let localePattern := '/' :: locale
  match jsIndexOf localePattern basePath with
  | none => cur
  | some idx =>
    match cur with
    | none =>
      let afterLocale := basePath.drop (idx + localePattern.length)
      if afterLocale = [] ∨ afterLocale.head? = some '/' then some idx else none
    | some c =>
      if idx < c then
        let afterLocale := basePath.drop (idx + localePattern.length)
        if afterLocale = [] ∨ afterLocale.head? = some '/' then some idx else some c
      else some c

/-- The `earliestAppRouteIdx` computed by `cleanBasePath`: both loops folded. -/
def earliestCutIdx (basePath : JStr) : Option Nat :=
  SUPPORTED_LOCALES.foldl (cleanStepLocale basePath)
    (APP_ROUTES.foldl (cleanStep basePath) none)

/-- `cleanBasePath` of the base-path module: truncate a candidate base path
strictly before the earliest application-route keyword or (boundary-checked)
locale segment found in it. -/
def cleanBasePath (basePath : JStr) : JStr :=
  if basePath = [] then []
  else
    match earliestCutIdx basePath with
    | some i => basePath.take i
    | none => basePath

/-- Match `/proxy/<digits>` at the start of `s` (with the digit run followed by
`/` or the end of the string), returning the matched `/proxy/<digits>` text. -/
def proxyCapture (s : JStr) : Option JStr :=
  if (jstr ("/proxy/")).isPrefixOf s then
    let rest := s.drop 7
    let digits := rest.takeWhile Char.isDigit
    if digits ≠ [] ∧ (rest.drop digits.length = [] ∨ (rest.drop digits.length).head? = some '/') then
      some (jstr ("/proxy/") ++ digits)
    else none
  else none

/-- The regex `^(.*?\/proxy\/\d+)(?:\/|$)` of `getBasePath`: the captured group
is the shortest prefix ending in a `/proxy/<digits>` segment. -/
def proxyMatch : JStr → Option JStr
  | [] => none
  | c :: rest =>
    match proxyCapture (c :: rest) with
    | some cap => some cap
    | none => (proxyMatch rest).map (fun cap => c :: cap)

/-- The locale-scan loop of `getBasePath`: for each locale in order, take the
first occurrence of `/<locale>`; when it is followed by `/` or the end of the
string, the prefix before it is the raw candidate. -/
def localeScanBasePath : List JStr → JStr → Option JStr
  | [], _ => none
  | locale :: rest, currentPath =>
    let localePattern := '/' :: locale
    match jsIndexOf localePattern currentPath with
    | some idx =>
      let afterLocale := currentPath.drop (idx + localePattern.length)
      if afterLocale = [] ∨ afterLocale.head? = some '/' then some (currentPath.take idx)
      else localeScanBasePath rest currentPath
    | none => localeScanBasePath rest currentPath

/-- The known top-level path markers scanned by `getBasePath` and by the
embedded redirect scripts. -/
def KNOWN_PATHS : List JStr := [jstr ("/api/"), jstr ("/v1/"), jstr ("/_next/")]

/-- The known-path loop of `getBasePath`: the prefix before the first marker
occurrence, required to be at a strictly positive index. -/
def knownPathScan : List JStr → JStr → Option JStr
  | [], _ => none
  | knownPath :: rest, currentPath =>
    match jsIndexOf knownPath currentPath with
    | some idx => if 0 < idx then some (currentPath.take idx) else knownPathScan rest currentPath
    | none => knownPathScan rest currentPath

/-- JS `currentPath.replace(/\/+$/, "")`: strip trailing slashes. -/
def removeTrailingSlashes (s : JStr) : JStr :=
  (s.reverse.dropWhile (fun c => c = '/')).reverse

/-- The regex `^\/(zh-CN|zh-TW|en|ja|ru|api|v1|_next)(\/|$)` used by the
whole-path fallback of `getBasePath` and of the embedded scripts. -/
def startsWithKnownRoute (p : JStr) : Bool :=
  (SUPPORTED_LOCALES ++ [jstr ("api"), jstr ("v1"), jstr ("_next")]).any
    (fun alt => p == '/' :: alt || ('/' :: (alt ++ ['/'])).isPrefixOf p)

/-- The part of `getBasePath` after the `/proxy/<digits>` attempt: locale scan,
then known-path scan, then the whole-path fallback; these branches return
without populating the cache. -/
def getBasePathRest (currentPath : JStr) : JStr :=
  match localeScanBasePath SUPPORTED_LOCALES currentPath with
  | some rawBasePath => cleanBasePath rawBasePath
  | none =>
    match knownPathScan KNOWN_PATHS currentPath with
    | some rawBasePath => cleanBasePath rawBasePath
    | none =>
      if 1 < currentPath.length then
        let pathWithoutTrailingSlash := removeTrailingSlashes currentPath
        if pathWithoutTrailingSlash ≠ [] ∧ startsWithKnownRoute pathWithoutTrailingSlash = false then
          cleanBasePath pathWithoutTrailingSlash
        else []
      else []

/-- `getBasePath` of the cached base-path module, with the module-scoped
`cachedBasePath` made explicit: the pair returned is
(result, new cache). `hasWindow` models `typeof window === "undefined"`. -/
def getBasePath (hasWindow : Bool) (currentPath : JStr) (cachedBasePath : Option JStr) :
    JStr × Option JStr :=
  if hasWindow = false then ([], cachedBasePath)
  else
    match cachedBasePath with
    | some c => (c, some c)
    | none =>
      match proxyMatch currentPath with
      | some proxyPrefix =>
        let cleaned := cleanBasePath proxyPrefix
        if cleaned ≠ [] then (cleaned, some cleaned)
        else (getBasePathRest currentPath, none)
      | none => (getBasePathRest currentPath, none)

/-- `needsBasePath` of the fetch interceptor: should the base path be
prepended to a string request URL? -/
def needsBasePath (url basePath : JStr) : Bool :=
  if (['/'] : JStr).isPrefixOf url = false then false
  else if (basePath ++ ['/']).isPrefixOf url then false
  else if (jstr ("/_next/")).isPrefixOf url then false
  else true

/-- The string-URL branch of the patched fetch: rewrite the URL when
`needsBasePath` holds. -/
def transformStringUrl (basePath url : JStr) : JStr :=
  if needsBasePath url basePath then basePath ++ url else url

/-- The patched fetch applied to a string URL: only the URL is transformed;
the init record (method, headers, body) is handed to the original fetch
unchanged. -/
def patchedFetchString {I R : Type} (originalFetch : JStr → I → R)
    (basePath : JStr) (url : JStr) (init : I) : R :=
  originalFetch (if needsBasePath url basePath then basePath ++ url else url) init

/-- Module state of the fetch interceptor: the `isPatched` flag, the
module-scoped `cachedBasePath`, and `window.fetch` (modelled on string
request URLs). -/
structure FetchState (I R : Type) where
  isPatched : Bool
  cachedBasePath : Option JStr
  windowFetch : JStr → I → R

/-- `patchFetchForProxy`, with the `getBasePath()` call result passed in as
`resolvedBasePath` and the module state made explicit. -/
def patchFetchForProxy {I R : Type} (hasWindow : Bool) (resolvedBasePath : JStr)
    (s : FetchState I R) : FetchState I R :=
  if hasWindow = false ∨ s.isPatched then s
  else
    let cached := resolvedBasePath
    if cached = [] then
      { s with isPatched := true, cachedBasePath := some cached }
    else
      { isPatched := true,
        cachedBasePath := some cached,
        windowFetch := fun input init =>
          s.windowFetch (if needsBasePath input cached then cached ++ input else input) init }

/-- `shouldPrependBasePath` of the navigation interceptor. -/
def shouldPrependBasePath (href basePath : JStr) : Bool :=
  if href = [] then false
  else if (jstr ("http://")).isPrefixOf href || (jstr ("https://")).isPrefixOf href
      || (jstr ("mailto:")).isPrefixOf href || (jstr ("tel:")).isPrefixOf href
      || (jstr ("javascript:")).isPrefixOf href || (['#'] : JStr).isPrefixOf href
      || (jstr ("blob:")).isPrefixOf href || (jstr ("data:")).isPrefixOf href then false
  else if (['/'] : JStr).isPrefixOf href = false then false
  else if (basePath ++ ['/']).isPrefixOf href || href == basePath then false
  else if (jsIndexOf (jstr ("/proxy/")) href).isSome then false
  else if (jstr ("/_next/")).isPrefixOf href then false
  else true

/-- `prependBasePath` of the navigation interceptor. -/
def prependBasePath (href basePath : JStr) : JStr := basePath ++ href

/-- The guarded navigation rewrite, as performed by the click handler and the
patched history calls: prepend the base path exactly when
`shouldPrependBasePath` holds. -/
def rewriteNavHref (href basePath : JStr) : JStr :=
  if shouldPrependBasePath href basePath then prependBasePath href basePath else href

/-- A patched `history.pushState`/`replaceState`: a string URL argument is
corrected before the original function is called. -/
def patchedHistoryCall {D U R : Type} (basePath : JStr)
    (original : D → U → Option JStr → R) : D → U → Option JStr → R :=
  fun data unused url =>
    match url with
    | some urlStr =>
      if urlStr ≠ [] ∧ shouldPrependBasePath urlStr basePath = true then
        original data unused (some (prependBasePath urlStr basePath))
      else original data unused (some urlStr)
    | none => original data unused none

/-- Module state of the navigation interceptor: the `isPatched` flag, the two
history entry points, and the number of installed click listeners. -/
structure NavState (D U R : Type) where
  isPatched : Bool
  pushState : D → U → Option JStr → R
  replaceState : D → U → Option JStr → R
  clickListeners : Nat

/-- `patchNavigationForProxy`, with the `getBasePath()` call result passed in
as `resolvedBasePath` and the module state made explicit. -/
def patchNavigationForProxy {D U R : Type} (hasWindow : Bool) (resolvedBasePath : JStr)
    (s : NavState D U R) : NavState D U R :=
  if hasWindow = false ∨ s.isPatched then s
  else if resolvedBasePath = [] then { s with isPatched := true }
  else
    { isPatched := true,
      clickListeners := s.clickListeners + 1,
      pushState := patchedHistoryCall resolvedBasePath s.pushState,
      replaceState := patchedHistoryCall resolvedBasePath s.replaceState }

/-- A concrete fetch-interceptor module state used by the frame-effect
witness. -/
def witnessFetchState : FetchState Unit Nat :=
  { isPatched := false, cachedBasePath := none, windowFetch := fun _ _ => 0 }

/-- A concrete navigation-interceptor module state used by the frame-effect
witness. -/
def witnessNavState : NavState Unit Unit Unit :=
  { isPatched := false, pushState := fun _ _ _ => (), replaceState := fun _ _ _ => (),
    clickListeners := 0 }

/-- The locale loop of the inline script of `createRelativeRedirect`: the
first locale (in enumeration order) whose first occurrence is followed by `/`
or the end of the string determines the base path; when no locale qualifies
the script's `basePath` stays the empty string. -/
def scriptLocaleLoop : List JStr → JStr → JStr
  | [], _ => []
  | locale :: rest, currentPath =>
    let localePattern := '/' :: locale
    match jsIndexOf localePattern currentPath with
    | some idx =>
      let afterLocale := currentPath.drop (idx + localePattern.length)
      if afterLocale = [] ∨ afterLocale.head? = some '/' then currentPath.take idx
      else scriptLocaleLoop rest currentPath
    | none => scriptLocaleLoop rest currentPath

/-- The known-path loop of the inline script: prefix before the first marker
at a strictly positive index, otherwise the empty string. -/
def scriptKnownLoop : List JStr → JStr → JStr
  | [], _ => []
  | knownPath :: rest, currentPath =>
    match jsIndexOf knownPath currentPath with
    | some idx => if 0 < idx then currentPath.take idx else scriptKnownLoop rest currentPath
    | none => scriptKnownLoop rest currentPath

/-- The base-path computation of the inline script embedded in the
self-resolving redirect document of `createRelativeRedirect`, as a pure
function of `window.location.pathname`. -/
def scriptBasePath (currentPath : JStr) : JStr :=
  let basePath1 := scriptLocaleLoop SUPPORTED_LOCALES currentPath
  if basePath1 ≠ [] then basePath1
  else
    let basePath2 := scriptKnownLoop KNOWN_PATHS currentPath
    if basePath2 ≠ [] then basePath2
    else if 1 < currentPath.length then
      let pathWithoutTrailingSlash := removeTrailingSlashes currentPath
      if pathWithoutTrailingSlash ≠ [] ∧ startsWithKnownRoute pathWithoutTrailingSlash = false then
        pathWithoutTrailingSlash
      else []
    else []

/-- `fullPath = basePath + targetPath`, the URL the script navigates to via
`location.replace`. -/
def scriptFullPath (currentPath targetPath : JStr) : JStr :=
  scriptBasePath currentPath ++ targetPath

/-- Public path patterns of the edge gate (`PUBLIC_PATH_PATTERNS`). -/
def PUBLIC_PATH_PATTERNS : List JStr :=
  [jstr ("/login"), jstr ("/usage-doc"), jstr ("/api/auth/login"), jstr ("/api/auth/logout")]

/-- Read-only path patterns of the edge gate (`READ_ONLY_PATH_PATTERNS`). -/
def READ_ONLY_PATH_PATTERNS : List JStr := [jstr ("/my-usage")]

/-- The versioned API-proxy path of the edge gate (`API_PROXY_PATH`). -/
def API_PROXY_PATH : JStr := jstr ("/v1")

/-- The regex `^\/([^/]+)` of the gate: the first path segment, when the path
starts with `/` followed by at least one non-`/` character. -/
def potentialLocale : JStr → Option JStr
  | [] => none
  | c :: rest =>
    if c = '/' then
      let seg := rest.takeWhile (fun ch => ch ≠ '/')
      if seg = [] then none else some seg
    else none

/-- `routing.locales.includes(potentialLocale)` of the gate. -/
def isLocaleInPath (pathname : JStr) : Bool :=
  match potentialLocale pathname with
  | some seg => SUPPORTED_LOCALES.contains seg
  | none => false

/-- `pathname.slice(potentialLocale.length + 1)` when a locale prefixes the
path, the whole pathname otherwise. -/
def pathWithoutLocale (pathname : JStr) : JStr :=
  if isLocaleInPath pathname then
    pathname.drop (((potentialLocale pathname).getD []).length + 1)
  else pathname

/-- Public-path classification of the locale-stripped path. -/
def isPublicPath (p : JStr) : Bool :=
  PUBLIC_PATH_PATTERNS.any (fun pattern => p == pattern || pattern.isPrefixOf p)

/-- Read-only classification of the locale-stripped path. -/
def isReadOnlyPath (p : JStr) : Bool :=
  READ_ONLY_PATH_PATTERNS.any (fun pattern => p == pattern || (pattern ++ ['/']).isPrefixOf p)

/-- `isLocaleInPath ? potentialLocale : routing.defaultLocale`; the default
locale is a configuration value of the external locale-routing collaborator,
passed in explicitly. -/
def requestLocale (defaultLocale pathname : JStr) : JStr :=
  if isLocaleInPath pathname then (potentialLocale pathname).getD [] else defaultLocale

/-- Uppercase hexadecimal digit for a value below 16. -/
def hexDigit (n : Nat) : Char :=
  if n < 10 then Char.ofNat (48 + n) else Char.ofNat (55 + n)

/-- Percent-encode a single byte. -/
def percentByte (b : Nat) : JStr := ['%', hexDigit (b / 16), hexDigit (b % 16)]

/-- UTF-8 bytes of a character. -/
def utf8Bytes (c : Char) : List Nat :=
  let n := c.toNat
  if n < 128 then [n]
  else if n < 2048 then [192 + n / 64, 128 + n % 64]
  else if n < 65536 then [224 + n / 4096, 128 + (n / 64) % 64, 128 + n % 64]
  else [240 + n / 262144, 128 + (n / 4096) % 64, 128 + (n / 64) % 64, 128 + n % 64]

/-- Modelled from the spec of the platform `URLSearchParams` serializer (the
WHATWG application/x-www-form-urlencoded set, external to the repository):
`*`, `-`, `.`, `_` and alphanumerics stay, space becomes `+`, every other
character is percent-encoded byte-wise. -/
def formEncodeChar (c : Char) : JStr :=
  if c = ' ' then ['+']
  else if c.isAlphanum || c = '*' || c = '-' || c = '.' || c = '_' then [c]
  else ((utf8Bytes c).map percentByte).flatten

/-- Form-encode a string value. -/
def formEncode (v : JStr) : JStr := (v.map formEncodeChar).flatten

/-- `URLSearchParams.toString()` for an ordered list of key/value pairs. -/
def urlSearchParamsToString (params : List (JStr × JStr)) : JStr :=
  List.intercalate ['&'] (params.map (fun kv => formEncode kv.1 ++ '=' :: formEncode kv.2))

/-- The HTTP 200 self-resolving redirect document, abstracted to the data the
claims are about: its status, the embedded `targetPath`, and whether the
response clears the `auth-token` cookie (`Set-Cookie` header plus the
`document.cookie` line in the script). -/
structure RedirectDocument where
  status : Nat
  targetPath : JStr
  setCookieClearAuthToken : Bool
deriving DecidableEq

/-- `createRelativeRedirect` of the gate: builds the 200 self-resolving
document for `targetPath` with optional search params; it never clears the
cookie. -/
def createRelativeRedirect (targetPath : JStr) (searchParams : Option (List (JStr × JStr))) :
    RedirectDocument :=
  let fullTargetPath :=
    match searchParams with
    | some params =>
      if urlSearchParamsToString params ≠ [] then
        targetPath ++ '?' :: urlSearchParamsToString params
      else targetPath
    | none => targetPath
  { status := 200, targetPath := fullTargetPath, setCookieClearAuthToken := false }

/-- Pathname and search extracted by `new URL(location, "http://dummy")`. -/
structure UrlParts where
  pathname : JStr
  search : JStr
deriving DecidableEq

/-- A response as the gate sees it: status, optional `Location` header, and an
opaque remainder (body, other headers). -/
structure HttpResponse (B : Type) where
  status : Nat
  location : Option JStr
  rest : B
deriving DecidableEq

/-- The value the gate returns for a request: `NextResponse.next()`
passthrough, the (unconverted) locale-middleware response, or a 200
self-resolving redirect document. -/
inductive GateResult (B : Type) where
  | next
  | raw (response : HttpResponse B)
  | doc (d : RedirectDocument)
deriving DecidableEq

/-- `convertToRelativeRedirect` of the gate; the WHATWG URL parser is external
and passed in as `parseURL`, with `none` modelling a thrown parse error
(caught by the gate). -/
def convertToRelativeRedirect {B : Type} (parseURL : JStr → Option UrlParts)
    (response : HttpResponse B) : GateResult B :=
  match response.location with
  | none => .raw response
  | some location =>
    if location = [] then .raw response
    else if response.status < 300 ∨ 400 ≤ response.status then .raw response
    else
      match parseURL location with
      | some url =>
        .doc { status := 200, targetPath := url.pathname ++ url.search,
               setCookieClearAuthToken := false }
      | none => .raw response

/-- The `from` search params built by the gate for login redirects
(`searchParams.set("from", pathWithoutLocale || "/dashboard")`). -/
def loginSearchParams (stripped : JStr) : List (JStr × JStr) :=
  [(jstr ("from"), if stripped = [] then jstr ("/dashboard") else stripped)]

/-- `proxyHandler` of the edge gate. External collaborators are parameters:
`validateKey` is the Session Validator, `parseURL` the URL parser used during
response conversion, `localeResponse` the response the next-intl locale
middleware produces for this request, and `defaultLocale` the routing
configuration's default locale. `authToken` is the `auth-token` cookie. -/
def proxyHandler {S B : Type} (validateKey : JStr → Bool → Option S)
    (parseURL : JStr → Option UrlParts) (localeResponse : HttpResponse B)
    (defaultLocale : JStr) (pathname : JStr) (authToken : Option JStr) : GateResult B :=
  if API_PROXY_PATH.isPrefixOf pathname then .next
  else if (jstr ("/_next")).isPrefixOf pathname || pathname == jstr ("/favicon.ico") then .next
  else
    if isPublicPath (pathWithoutLocale pathname) then
      convertToRelativeRedirect parseURL localeResponse
    else
      match authToken with
      | none =>
        let locale := requestLocale defaultLocale pathname
        let loginPath := '/' :: (locale ++ jstr ("/login"))
        .doc (createRelativeRedirect loginPath (some (loginSearchParams (pathWithoutLocale pathname))))
      | some token =>
        match validateKey token (isReadOnlyPath (pathWithoutLocale pathname)) with
        | none =>
          let locale := requestLocale defaultLocale pathname
          let loginPath := '/' :: (locale ++ jstr ("/login"))
          let fullTargetPath :=
            loginPath ++ '?' :: urlSearchParamsToString (loginSearchParams (pathWithoutLocale pathname))
          .doc { status := 200, targetPath := fullTargetPath, setCookieClearAuthToken := true }
        | some _ => convertToRelativeRedirect parseURL localeResponse

/-- The final fold value is `some i` with `i ≤ j`. -/
def cutBelow (o : Option Nat) (j : Nat) : Prop := ∃ i, o = some i ∧ i ≤ j

/-- The boundary condition checked for a locale occurrence ending at `pos`. -/
def localeBoundary (s : JStr) (pos : Nat) : Prop :=
  s.drop pos = [] ∨ (s.drop pos).head? = some '/'

/-- A cut index recorded by `earliestCutIdx`: the first occurrence of an
application route, or a boundary-checked first occurrence of a locale. -/
def hitAt (s : JStr) (i : Nat) : Prop :=
  (∃ r ∈ APP_ROUTES, jsIndexOf r s = some i) ∨
  (∃ L ∈ SUPPORTED_LOCALES, jsIndexOf ('/' :: L) s = some i ∧
    localeBoundary s (i + ('/' :: L).length))

theorem isPrefixOf_iff_exists (p : JStr) : ∀ (l : JStr),
    p.isPrefixOf l = true ↔ ∃ t, p ++ t = l := by
  induction p with
  | nil =>
    intro l
    simp [List.isPrefixOf]
  | cons a as ih =>
    intro l
    cases l with
    | nil =>
      simp [List.isPrefixOf]
    | cons b bs =>
      simp only [List.isPrefixOf, Bool.and_eq_true, beq_iff_eq, ih bs]
      constructor
      · rintro ⟨rfl, t, rfl⟩
        exact ⟨t, rfl⟩
      · rintro ⟨t, h⟩
        rw [List.cons_append] at h
        injection h with h1 h2
        exact ⟨h1, t, h2⟩

theorem jsIndexOf_some_isPrefixOf (needle s : JStr) (i : Nat)
    (h : jsIndexOf needle s = some i) : needle.isPrefixOf (s.drop i) = true := by
  induction s generalizing i with
  | nil =>
    simp only [jsIndexOf] at h
    split at h
    · injection h with h'
      subst h'
      simpa using ‹needle.isPrefixOf [] = true›
    · exact absurd h (by simp)
  | cons c rest ih =>
    simp only [jsIndexOf] at h
    split at h
    · injection h with h'
      subst h'
      simpa using ‹needle.isPrefixOf (c :: rest) = true›
    · cases hr : jsIndexOf needle rest with
      | none => rw [hr] at h; exact absurd h (by simp)
      | some j =>
        rw [hr, Option.map_some'] at h
        injection h with h'
        subst h'
        rw [List.drop_succ_cons]
        exact ih j hr

theorem jsIndexOf_complete (needle s : JStr) (j : Nat)
    (h : needle.isPrefixOf (s.drop j) = true) :
    ∃ i, jsIndexOf needle s = some i ∧ i ≤ j := by
  induction s generalizing j with
  | nil =>
    refine ⟨0, ?_, Nat.zero_le j⟩
    simp only [List.drop_nil] at h
    simp [jsIndexOf, h]
  | cons c rest ih =>
    cases j with
    | zero =>
      simp only [List.drop_zero] at h
      exact ⟨0, by simp [jsIndexOf, h], Nat.le_refl 0⟩
    | succ j' =>
      by_cases hp : needle.isPrefixOf (c :: rest) = true
      · exact ⟨0, by simp [jsIndexOf, hp], Nat.zero_le _⟩
      · simp only [List.drop_succ_cons] at h
        obtain ⟨i', hi', hle⟩ := ih j' h
        refine ⟨i' + 1, ?_, Nat.succ_le_succ hle⟩
        simp [jsIndexOf, hp, hi']

theorem jsIndexOf_some_lt (needle s : JStr) (i : Nat) (hne : needle ≠ [])
    (h : jsIndexOf needle s = some i) : i < s.length := by
  have hp := jsIndexOf_some_isPrefixOf needle s i h
  rw [isPrefixOf_iff_exists] at hp
  obtain ⟨t, ht⟩ := hp
  by_contra hlt
  push_neg at hlt
  have : s.drop i = [] := List.drop_eq_nil_of_le hlt
  rw [this] at ht
  exact hne (List.append_eq_nil.mp ht).1

theorem cleanStep_origin (s : JStr) (cur : Option Nat) (route : JStr) (i : Nat)
    (h : cleanStep s cur route = some i) : cur = some i ∨ jsIndexOf route s = some i := by
  cases hj : jsIndexOf route s with
  | none =>
    simp only [cleanStep, hj] at h
    exact Or.inl h
  | some idx =>
    cases cur with
    | none =>
      simp only [cleanStep, hj] at h
      exact Or.inr h
    | some c =>
      simp only [cleanStep, hj] at h
      split at h
      · exact Or.inr h
      · exact Or.inl h

theorem cleanStep_mono (s : JStr) (cur : Option Nat) (route : JStr) (j : Nat)
    (h : cutBelow cur j) : cutBelow (cleanStep s cur route) j := by
  obtain ⟨c, rfl, hc⟩ := h
  cases hj : jsIndexOf route s with
  | none => exact ⟨c, by simp only [cleanStep, hj], hc⟩
  | some idx =>
    simp only [cleanStep, hj]
    by_cases hlt : idx < c
    · rw [if_pos hlt]
      exact ⟨idx, rfl, by omega⟩
    · rw [if_neg hlt]
      exact ⟨c, rfl, hc⟩

theorem cleanStep_cand (s : JStr) (cur : Option Nat) (route : JStr) (j : Nat)
    (h : jsIndexOf route s = some j) : cutBelow (cleanStep s cur route) j := by
  cases cur with
  | none => exact ⟨j, by simp only [cleanStep, h], Nat.le_refl j⟩
  | some c =>
    simp only [cleanStep, h]
    by_cases hlt : j < c
    · rw [if_pos hlt]
      exact ⟨j, rfl, Nat.le_refl j⟩
    · rw [if_neg hlt]
      exact ⟨c, rfl, by omega⟩

theorem cleanStepLocale_origin (s : JStr) (cur : Option Nat) (locale : JStr) (i : Nat)
    (h : cleanStepLocale s cur locale = some i) :
    cur = some i ∨ (jsIndexOf ('/' :: locale) s = some i ∧
      localeBoundary s (i + ('/' :: locale).length)) := by
  cases hj : jsIndexOf ('/' :: locale) s with
  | none =>
    simp only [cleanStepLocale, hj] at h
    exact Or.inl h
  | some idx =>
    cases cur with
    | none =>
      simp only [cleanStepLocale, hj] at h
      split at h
      · next hb =>
        injection h with h'
        subst h'
        exact Or.inr ⟨rfl, hb⟩
      · exact absurd h (by simp)
    | some c =>
      simp only [cleanStepLocale, hj] at h
      split at h
      · split at h
        · next hb =>
          injection h with h'
          subst h'
          exact Or.inr ⟨rfl, hb⟩
        · exact Or.inl h
      · exact Or.inl h

theorem cleanStepLocale_mono (s : JStr) (cur : Option Nat) (locale : JStr) (j : Nat)
    (h : cutBelow cur j) : cutBelow (cleanStepLocale s cur locale) j := by
  obtain ⟨c, rfl, hc⟩ := h
  cases hj : jsIndexOf ('/' :: locale) s with
  | none => exact ⟨c, by simp only [cleanStepLocale, hj], hc⟩
  | some idx =>
    simp only [cleanStepLocale, hj]
    by_cases hlt : idx < c
    · rw [if_pos hlt]
      by_cases hb : List.drop (idx + ('/' :: locale).length) s = [] ∨
          (List.drop (idx + ('/' :: locale).length) s).head? = some '/'
      · rw [if_pos hb]
        exact ⟨idx, rfl, by omega⟩
      · rw [if_neg hb]
        exact ⟨c, rfl, hc⟩
    · rw [if_neg hlt]
      exact ⟨c, rfl, hc⟩

theorem cleanStepLocale_cand (s : JStr) (cur : Option Nat) (locale : JStr) (j : Nat)
    (hj : jsIndexOf ('/' :: locale) s = some j)
    (hb : localeBoundary s (j + ('/' :: locale).length)) :
    cutBelow (cleanStepLocale s cur locale) j := by
  have hb' : s.drop (j + ('/' :: locale).length) = [] ∨
      (s.drop (j + ('/' :: locale).length)).head? = some '/' := hb
  cases cur with
  | none =>
    simp only [cleanStepLocale, hj]
    rw [if_pos hb']
    exact ⟨j, rfl, Nat.le_refl j⟩
  | some c =>
    simp only [cleanStepLocale, hj]
    by_cases hlt : j < c
    · rw [if_pos hlt, if_pos hb']
      exact ⟨j, rfl, Nat.le_refl j⟩
    · rw [if_neg hlt]
      exact ⟨c, rfl, by omega⟩

theorem routesFold_origin (s : JStr) (routes : List JStr) : ∀ (cur : Option Nat) (i : Nat),
    routes.foldl (cleanStep s) cur = some i →
    cur = some i ∨ ∃ r ∈ routes, jsIndexOf r s = some i := by
  induction routes with
  | nil => intro cur i h; exact Or.inl h
  | cons r0 rest ih =>
    intro cur i h
    rw [List.foldl_cons] at h
    rcases ih (cleanStep s cur r0) i h with h' | ⟨r, hr, hrs⟩
    · rcases cleanStep_origin s cur r0 i h' with h'' | h''
      · exact Or.inl h''
      · exact Or.inr ⟨r0, List.mem_cons_self r0 rest, h''⟩
    · exact Or.inr ⟨r, List.mem_cons_of_mem r0 hr, hrs⟩

theorem routesFold_mono (s : JStr) (routes : List JStr) : ∀ (cur : Option Nat) (j : Nat),
    cutBelow cur j → cutBelow (routes.foldl (cleanStep s) cur) j := by
  induction routes with
  | nil => intro cur j h; exact h
  | cons r0 rest ih =>
    intro cur j h
    rw [List.foldl_cons]
    exact ih _ j (cleanStep_mono s cur r0 j h)

theorem routesFold_cand (s : JStr) (routes : List JStr) : ∀ (cur : Option Nat) (r : JStr),
    r ∈ routes → ∀ j, jsIndexOf r s = some j →
    cutBelow (routes.foldl (cleanStep s) cur) j := by
  induction routes with
  | nil => intro cur r hr; exact absurd hr (List.not_mem_nil r)
  | cons r0 rest ih =>
    intro cur r hr j hj
    rw [List.foldl_cons]
    rcases List.mem_cons.mp hr with rfl | hr'
    · exact routesFold_mono s rest _ j (cleanStep_cand s cur r j hj)
    · exact ih _ r hr' j hj

theorem localesFold_origin (s : JStr) (locales : List JStr) : ∀ (cur : Option Nat) (i : Nat),
    locales.foldl (cleanStepLocale s) cur = some i →
    cur = some i ∨ ∃ L ∈ locales, jsIndexOf ('/' :: L) s = some i ∧
      localeBoundary s (i + ('/' :: L).length) := by
  induction locales with
  | nil => intro cur i h; exact Or.inl h
  | cons L0 rest ih =>
    intro cur i h
    rw [List.foldl_cons] at h
    rcases ih (cleanStepLocale s cur L0) i h with h' | ⟨L, hL, hLs⟩
    · rcases cleanStepLocale_origin s cur L0 i h' with h'' | h''
      · exact Or.inl h''
      · exact Or.inr ⟨L0, List.mem_cons_self L0 rest, h''⟩
    · exact Or.inr ⟨L, List.mem_cons_of_mem L0 hL, hLs⟩

theorem localesFold_mono (s : JStr) (locales : List JStr) : ∀ (cur : Option Nat) (j : Nat),
    cutBelow cur j → cutBelow (locales.foldl (cleanStepLocale s) cur) j := by
  induction locales with
  | nil => intro cur j h; exact h
  | cons L0 rest ih =>
    intro cur j h
    rw [List.foldl_cons]
    exact ih _ j (cleanStepLocale_mono s cur L0 j h)

theorem localesFold_cand (s : JStr) (locales : List JStr) : ∀ (cur : Option Nat) (L : JStr),
    L ∈ locales → ∀ j, jsIndexOf ('/' :: L) s = some j →
    localeBoundary s (j + ('/' :: L).length) →
    cutBelow (locales.foldl (cleanStepLocale s) cur) j := by
  induction locales with
  | nil => intro cur L hL; exact absurd hL (List.not_mem_nil L)
  | cons L0 rest ih =>
    intro cur L hL j hj hb
    rw [List.foldl_cons]
    rcases List.mem_cons.mp hL with rfl | hL'
    · exact localesFold_mono s rest _ j (cleanStepLocale_cand s cur L j hj hb)
    · exact ih _ L hL' j hj hb

theorem earliestCutIdx_hitAt (s : JStr) (i : Nat) (h : earliestCutIdx s = some i) :
    hitAt s i := by
  unfold earliestCutIdx at h
  rcases localesFold_origin s SUPPORTED_LOCALES _ i h with h' | hloc
  · rcases routesFold_origin s APP_ROUTES none i h' with h'' | hroute
    · exact absurd h'' (by simp)
    · exact Or.inl hroute
  · exact Or.inr hloc

theorem earliestCutIdx_below_route (s : JStr) {r : JStr} {j : Nat}
    (hr : r ∈ APP_ROUTES) (hj : jsIndexOf r s = some j) :
    cutBelow (earliestCutIdx s) j := by
  unfold earliestCutIdx
  exact localesFold_mono s SUPPORTED_LOCALES _ j (routesFold_cand s APP_ROUTES none r hr j hj)

theorem earliestCutIdx_below_locale (s : JStr) {L : JStr} {j : Nat}
    (hL : L ∈ SUPPORTED_LOCALES) (hj : jsIndexOf ('/' :: L) s = some j)
    (hb : localeBoundary s (j + ('/' :: L).length)) :
    cutBelow (earliestCutIdx s) j := by
  unfold earliestCutIdx
  exact localesFold_cand s SUPPORTED_LOCALES _ L hL j hj hb

theorem appRoutes_facts : ∀ r ∈ APP_ROUTES, r.head? = some '/' ∧ r ≠ [] := by decide

theorem isPrefixOf_length_le (p l : JStr) (h : p.isPrefixOf l = true) :
    p.length ≤ l.length := by
  rw [isPrefixOf_iff_exists] at h
  obtain ⟨t, ht⟩ := h
  subst ht
  simp

theorem headOpt_take (l : JStr) (m : Nat) (hm : 0 < m) : (l.take m).head? = l.head? := by
  cases l with
  | nil => simp
  | cons a t =>
    cases m with
    | zero => omega
    | succ k => simp

theorem isPrefixOf_of_isPrefixOf_take (p l : JStr) (q : Nat)
    (h : p.isPrefixOf (l.take q) = true) : p.isPrefixOf l = true := by
  rw [isPrefixOf_iff_exists] at h ⊢
  obtain ⟨t, ht⟩ := h
  refine ⟨t ++ l.drop q, ?_⟩
  rw [← List.append_assoc, ht, List.take_append_drop]

theorem isPrefixOf_take_of_fits (p l : JStr) (q : Nat)
    (h : p.isPrefixOf l = true) (hfit : p.length ≤ q) : p.isPrefixOf (l.take q) = true := by
  rw [isPrefixOf_iff_exists] at h ⊢
  obtain ⟨t, ht⟩ := h
  refine ⟨t.take (q - p.length), ?_⟩
  rw [← ht, List.take_append_eq_append_take, List.take_of_length_le hfit]

theorem hitAt_head_slash (s : JStr) (i : Nat) (h : hitAt s i) :
    (s.drop i).head? = some '/' := by
  rcases h with ⟨r, hrmem, hrj⟩ | ⟨L, _, hLj, _⟩
  · obtain ⟨hhead, hne⟩ := appRoutes_facts r hrmem
    have hp := jsIndexOf_some_isPrefixOf r s i hrj
    rw [isPrefixOf_iff_exists] at hp
    obtain ⟨t, ht⟩ := hp
    cases r with
    | nil => exact absurd rfl hne
    | cons a r' =>
      rw [← ht]
      simp only [List.cons_append, List.head?_cons]
      simpa using hhead
  · have hp := jsIndexOf_some_isPrefixOf ('/' :: L) s i hLj
    rw [isPrefixOf_iff_exists] at hp
    obtain ⟨t, ht⟩ := hp
    rw [← ht]
    simp

theorem hitAt_lt_length (s : JStr) (i : Nat) (h : hitAt s i) : i < s.length := by
  rcases h with ⟨r, hrmem, hrj⟩ | ⟨L, _, hLj, _⟩
  · exact jsIndexOf_some_lt r s i (appRoutes_facts r hrmem).2 hrj
  · exact jsIndexOf_some_lt ('/' :: L) s i (by simp) hLj

/-- The string cut off by `cleanBasePath` contains no remaining cut index:
no application route occurs in it, and no boundary-checked locale first
occurrence survives in it. -/
theorem earliestCutIdx_take_eq_none (s : JStr) (i : Nat) (h : earliestCutIdx s = some i) :
    earliestCutIdx (s.take i) = none := by
  have hitS := earliestCutIdx_hitAt s i h
  have hiLt : i < s.length := hitAt_lt_length s i hitS
  have headSlash : (s.drop i).head? = some '/' := hitAt_head_slash s i hitS
  have ylen : (s.take i).length = i := by
    rw [List.length_take]
    omega
  cases hj : earliestCutIdx (s.take i) with
  | none => rfl
  | some j =>
    exfalso
    have hit := earliestCutIdx_hitAt (s.take i) j hj
    rcases hit with ⟨r, hrmem, hrj⟩ | ⟨L, hLmem, hLj, hLb⟩
    · have hjlt : j < i := by
        have := jsIndexOf_some_lt r (s.take i) j (appRoutes_facts r hrmem).2 hrj
        omega
      have hpref_y := jsIndexOf_some_isPrefixOf r (s.take i) j hrj
      rw [List.drop_take] at hpref_y
      have hpref_s : r.isPrefixOf (s.drop j) = true :=
        isPrefixOf_of_isPrefixOf_take r (s.drop j) (i - j) hpref_y
      obtain ⟨j0, hj0, hj0le⟩ := jsIndexOf_complete r s j hpref_s
      obtain ⟨i', hi', hile⟩ := earliestCutIdx_below_route s hrmem hj0
      rw [h] at hi'
      injection hi' with hi''
      omega
    · have hjlt : j < i := by
        have := jsIndexOf_some_lt ('/' :: L) (s.take i) j (by simp) hLj
        omega
      have hpref_y := jsIndexOf_some_isPrefixOf ('/' :: L) (s.take i) j hLj
      have hfits : j + ('/' :: L).length ≤ i := by
        have hlen := isPrefixOf_length_le ('/' :: L) ((s.take i).drop j) hpref_y
        rw [List.length_drop, ylen] at hlen
        omega
      rw [List.drop_take] at hpref_y
      have hpref_s : ('/' :: L).isPrefixOf (s.drop j) = true :=
        isPrefixOf_of_isPrefixOf_take ('/' :: L) (s.drop j) (i - j) hpref_y
      have hb_s : localeBoundary s (j + ('/' :: L).length) := by
        have hdt : (s.take i).drop (j + ('/' :: L).length) =
            (s.drop (j + ('/' :: L).length)).take (i - (j + ('/' :: L).length)) :=
          List.drop_take _ _ s
        rcases hLb with hb1 | hb2
        · rw [hdt] at hb1
          rcases List.take_eq_nil_iff.mp hb1 with hq | hnil
          · have hieq : j + ('/' :: L).length = i := by omega
            right
            rw [hieq]
            exact headSlash
          · left
            exact hnil
        · rw [hdt] at hb2
          have hqpos : 0 < i - (j + ('/' :: L).length) := by
            by_contra hq0
            push_neg at hq0
            have : i - (j + ('/' :: L).length) = 0 := by omega
            rw [this] at hb2
            simp at hb2
          right
          rw [← headOpt_take (s.drop (j + ('/' :: L).length)) (i - (j + ('/' :: L).length)) hqpos]
          exact hb2
      obtain ⟨j0, hj0, hj0le⟩ := jsIndexOf_complete ('/' :: L) s j hpref_s
      have hj0j : j0 = j := by
        by_contra hne'
        have hj0lt : j0 < j := Nat.lt_of_le_of_ne hj0le hne'
        have hpref0 := jsIndexOf_some_isPrefixOf ('/' :: L) s j0 hj0
        have hfit0 : ('/' :: L).length ≤ i - j0 := by omega
        have hprefy0 : ('/' :: L).isPrefixOf ((s.take i).drop j0) = true := by
          rw [List.drop_take]
          exact isPrefixOf_take_of_fits ('/' :: L) (s.drop j0) (i - j0) hpref0 hfit0
        obtain ⟨j1, hj1, hj1le⟩ := jsIndexOf_complete ('/' :: L) (s.take i) j0 hprefy0
        rw [hLj] at hj1
        injection hj1 with hj1'
        omega
      subst hj0j
      obtain ⟨i', hi', hile⟩ := earliestCutIdx_below_locale s hLmem hj0 hb_s
      rw [h] at hi'
      injection hi' with hi''
      omega

/-- `cleanBasePath` is idempotent. -/
theorem cleanBasePath_idem (s : JStr) : cleanBasePath (cleanBasePath s) = cleanBasePath s := by
  by_cases hs : s = []
  · subst hs
    simp [cleanBasePath]
  · cases he : earliestCutIdx s with
    | none =>
      have hss : cleanBasePath s = s := by simp [cleanBasePath, hs, he]
      rw [hss]
      exact hss
    | some i =>
      have hcs : cleanBasePath s = s.take i := by simp [cleanBasePath, hs, he]
      rw [hcs]
      by_cases hy : s.take i = []
      · rw [hy]
        simp [cleanBasePath]
      · have hn := earliestCutIdx_take_eq_none s i he
        simp [cleanBasePath, hy, hn]

/-- The result of `cleanBasePath` is a prefix of its input. -/
theorem cleanBasePath_isPrefix_aux (s : JStr) : ∃ t, cleanBasePath s ++ t = s := by
  by_cases hs : s = []
  · subst hs
    exact ⟨[], by simp [cleanBasePath]⟩
  · cases he : earliestCutIdx s with
    | none => exact ⟨[], by simp [cleanBasePath, hs, he]⟩
    | some i =>
      refine ⟨s.drop i, ?_⟩
      simp [cleanBasePath, hs, he, List.take_append_drop]

/-- When an application-route keyword occurs in the candidate, the result of
`cleanBasePath` is a take strictly before (or at) that occurrence. -/
theorem cleanBasePath_cut_before_route (s r : JStr) (j : Nat) (hr : r ∈ APP_ROUTES)
    (hj : jsIndexOf r s = some j) : ∃ i, i ≤ j ∧ cleanBasePath s = s.take i := by
  obtain ⟨i, hi, hile⟩ := earliestCutIdx_below_route s hr hj
  have hs : s ≠ [] := by
    intro h0
    subst h0
    have := jsIndexOf_some_lt r [] j (appRoutes_facts r hr).2 hj
    simp at this
  exact ⟨i, hile, by simp [cleanBasePath, hs, hi]⟩

/-- Claim C2: for current pathname `/proxy/4000/zh-CN/dashboard` and target
`/zh-CN/login?from=/dashboard`, the inline script of the self-resolving
redirect document infers base path `/proxy/4000` from the first matching
locale segment and navigates to `/proxy/4000/zh-CN/login?from=/dashboard`. -/
theorem claim_C2_script_resolution :
    scriptBasePath (jstr ("/proxy/4000/zh-CN/dashboard")) = jstr ("/proxy/4000") ∧
    scriptFullPath (jstr ("/proxy/4000/zh-CN/dashboard")) (jstr ("/zh-CN/login?from=/dashboard")) =
      jstr ("/proxy/4000/zh-CN/login?from=/dashboard") := by
  decide

/-- Claim C3: every request whose pathname starts with `/v1` is passed through
(`NextResponse.next()`) for every session validator, URL parser, locale
response, default locale, and cookie state; in particular the result does not
depend on any of them. -/
theorem claim_C3_api_proxy_passthrough {S B : Type} (validateKey : JStr → Bool → Option S)
    (parseURL : JStr → Option UrlParts) (localeResponse : HttpResponse B)
    (defaultLocale pathname : JStr) (authToken : Option JStr)
    (h : API_PROXY_PATH.isPrefixOf pathname = true) :
    proxyHandler validateKey parseURL localeResponse defaultLocale pathname authToken =
      GateResult.next := by
  simp [proxyHandler, h]

theorem claim_C3_witness :
    @proxyHandler Unit Unit (fun _ _ => some ()) (fun _ => none)
      (HttpResponse.mk 200 none ()) (jstr ("en")) (jstr ("/v1/chat/completions"))
      (some (jstr ("token"))) = GateResult.next :=
  claim_C3_api_proxy_passthrough _ _ _ _ _ _ (by decide)

/-- Claim C4 (counterexample): the first `getBasePath` call on
`/zh-CN/dashboard` returns the empty string without populating the cache
(only the `/proxy/<digits>` branch caches); after the location changes to
`/x/zh-CN/dashboard`, the second call returns `/x`, a different value — the
claim that the second call always returns the first call's value is false. -/
theorem claim_C4_counterexample :
    (getBasePath true (jstr ("/zh-CN/dashboard")) none).1 = ([] : JStr) ∧
    (getBasePath true (jstr ("/zh-CN/dashboard")) none).2 = none ∧
    (getBasePath true (jstr ("/x/zh-CN/dashboard"))
        (getBasePath true (jstr ("/zh-CN/dashboard")) none).2).1 = jstr ("/x") ∧
    jstr ("/x") ≠ ([] : JStr) := by
  decide

/-- Claim C4 (amended): the cache is populated exactly when the first call
resolves via the `/proxy/<digits>` pattern to a nonempty cleaned prefix; in
that case every subsequent call returns the identical cached value regardless
of how the pathname has changed. -/
theorem claim_C4_amended (firstPath secondPath proxyPrefix : JStr)
    (hm : proxyMatch firstPath = some proxyPrefix)
    (hc : cleanBasePath proxyPrefix ≠ []) :
    getBasePath true firstPath none =
      (cleanBasePath proxyPrefix, some (cleanBasePath proxyPrefix)) ∧
    getBasePath true secondPath (getBasePath true firstPath none).2 =
      ((getBasePath true firstPath none).1, (getBasePath true firstPath none).2) := by
  have h1 : getBasePath true firstPath none =
      (cleanBasePath proxyPrefix, some (cleanBasePath proxyPrefix)) := by
    simp [getBasePath, hm, hc]
  refine ⟨h1, ?_⟩
  rw [h1]
  simp [getBasePath]

theorem claim_C4_amended_witness :
    getBasePath true (jstr ("/ws-abc/proxy/3000/zh-CN/dashboard")) none =
      (jstr ("/ws-abc/proxy/3000"), some (jstr ("/ws-abc/proxy/3000"))) ∧
    getBasePath true (jstr ("/completely/different"))
        (getBasePath true (jstr ("/ws-abc/proxy/3000/zh-CN/dashboard")) none).2 =
      ((getBasePath true (jstr ("/ws-abc/proxy/3000/zh-CN/dashboard")) none).1,
       (getBasePath true (jstr ("/ws-abc/proxy/3000/zh-CN/dashboard")) none).2) := by
  have h := claim_C4_amended (jstr ("/ws-abc/proxy/3000/zh-CN/dashboard"))
    (jstr ("/completely/different")) (jstr ("/ws-abc/proxy/3000")) (by decide) (by decide)
  exact ⟨h.1.trans (by decide), h.2⟩

/-- Claim C6 (counterexample): in the candidate `/foo/ja/dashboard` the only
application-route keyword occurrence is `/dashboard` at index 7, so the
portion strictly preceding the earliest keyword is `/foo/ja`; yet
`cleanBasePath` returns `/foo` (the locale segment `/ja` cuts earlier), which
is neither empty nor that portion. -/
theorem claim_C6_counterexample :
    jsIndexOf (jstr ("/dashboard")) (jstr ("/foo/ja/dashboard")) = some 7 ∧
    jsIndexOf (jstr ("/settings")) (jstr ("/foo/ja/dashboard")) = none ∧
    jsIndexOf (jstr ("/login")) (jstr ("/foo/ja/dashboard")) = none ∧
    jsIndexOf (jstr ("/logout")) (jstr ("/foo/ja/dashboard")) = none ∧
    jsIndexOf (jstr ("/my-usage")) (jstr ("/foo/ja/dashboard")) = none ∧
    jsIndexOf (jstr ("/usage-doc")) (jstr ("/foo/ja/dashboard")) = none ∧
    jsIndexOf (jstr ("/internal")) (jstr ("/foo/ja/dashboard")) = none ∧
    jsIndexOf (jstr ("/api")) (jstr ("/foo/ja/dashboard")) = none ∧
    jsIndexOf (jstr ("/v1")) (jstr ("/foo/ja/dashboard")) = none ∧
    jsIndexOf (jstr ("/v1beta")) (jstr ("/foo/ja/dashboard")) = none ∧
    jsIndexOf (jstr ("/_next")) (jstr ("/foo/ja/dashboard")) = none ∧
    cleanBasePath (jstr ("/foo/ja/dashboard")) = jstr ("/foo") ∧
    jstr ("/foo") ≠ ([] : JStr) ∧
    jstr ("/foo") ≠ (jstr ("/foo/ja/dashboard")).take 7 := by
  decide

/-- Claim C6 (amended): `cleanBasePath` is idempotent; its result is always a
prefix of the input; and when an application-route keyword occurs in the
input, the result is a take of the input ending at or before that keyword's
first occurrence (so it is the empty string or a prefix of the portion
strictly preceding the earliest keyword — a locale segment found before the
keyword may truncate even earlier). -/
theorem claim_C6_amended (x : JStr) :
    cleanBasePath (cleanBasePath x) = cleanBasePath x ∧
    (∃ t, cleanBasePath x ++ t = x) ∧
    (∀ r, r ∈ APP_ROUTES → ∀ j, jsIndexOf r x = some j →
      ∃ i, i ≤ j ∧ cleanBasePath x = x.take i) := by
  refine ⟨cleanBasePath_idem x, cleanBasePath_isPrefix_aux x, ?_⟩
  intro r hr j hj
  exact cleanBasePath_cut_before_route x r j hr hj

theorem claim_C6_amended_witness :
    cleanBasePath (cleanBasePath (jstr ("/bar/dashboard"))) =
      cleanBasePath (jstr ("/bar/dashboard")) ∧
    (∃ i, i ≤ 4 ∧ cleanBasePath (jstr ("/bar/dashboard")) =
      (jstr ("/bar/dashboard")).take i) := by
  refine ⟨(claim_C6_amended (jstr ("/bar/dashboard"))).1, ?_⟩
  exact (claim_C6_amended (jstr ("/bar/dashboard"))).2.2 (jstr ("/dashboard"))
    (by decide) 4 (by decide)

theorem needsBasePath_eq_false_iff (url basePath : JStr) :
    needsBasePath url basePath = false ↔
      ((['/'] : JStr).isPrefixOf url = false ∨ (basePath ++ ['/']).isPrefixOf url = true ∨
        (jstr ("/_next/")).isPrefixOf url = true) := by
  unfold needsBasePath
  split_ifs with h1 h2 h3 <;> simp_all

/-- Claim C5: with a nonempty base path, the string-URL transform of the
patched fetch is a no-op exactly on URLs that do not start with `/`, already
start with `basePath + "/"`, or start with `/_next/`; every other URL becomes
exactly `basePath ++ url`; and the patched fetch passes the init record
(method, headers, body) to the original fetch unchanged. -/
theorem claim_C5_fetch_string_rewrite (basePath url : JStr) (hb : basePath ≠ []) :
    (transformStringUrl basePath url = url ↔
      ((['/'] : JStr).isPrefixOf url = false ∨ (basePath ++ ['/']).isPrefixOf url = true ∨
        (jstr ("/_next/")).isPrefixOf url = true)) ∧
    (needsBasePath url basePath = true → transformStringUrl basePath url = basePath ++ url) ∧
    (∀ (I R : Type) (originalFetch : JStr → I → R) (init : I),
      patchedFetchString originalFetch basePath url init =
        originalFetch (transformStringUrl basePath url) init) := by
  refine ⟨?_, ?_, ?_⟩
  · rw [← needsBasePath_eq_false_iff]
    constructor
    · intro heq
      by_cases hn : needsBasePath url basePath = true
      · exfalso
        rw [transformStringUrl, if_pos hn] at heq
        have hlen : basePath.length + url.length = url.length := by
          have := congrArg List.length heq
          simpa using this
        have h0 : basePath.length = 0 := by omega
        exact hb (List.length_eq_zero.mp h0)
      · simpa using hn
    · intro hn
      rw [transformStringUrl, if_neg (by simp [hn])]
  · intro hn
    rw [transformStringUrl, if_pos hn]
  · intro I R originalFetch init
    rfl

theorem claim_C5_witness :
    transformStringUrl (jstr ("/proxy/4000")) (jstr ("/api/usage")) =
      jstr ("/proxy/4000")  ++ jstr ("/api/usage") ∧
    transformStringUrl (jstr ("/proxy/4000")) (jstr ("/_next/static/x.js")) =
      jstr ("/_next/static/x.js") := by
  constructor
  · exact (claim_C5_fetch_string_rewrite (jstr ("/proxy/4000")) (jstr ("/api/usage"))
      (by decide)).2.1 (by decide)
  · exact ((claim_C5_fetch_string_rewrite (jstr ("/proxy/4000")) (jstr ("/_next/static/x.js"))
      (by decide)).1).mpr (Or.inr (Or.inr (by decide)))

theorem shouldPrependBasePath_true_slash (href basePath : JStr)
    (h : shouldPrependBasePath href basePath = true) :
    (['/'] : JStr).isPrefixOf href = true := by
  unfold shouldPrependBasePath at h
  split_ifs at h <;> simp_all

theorem needsBasePath_true_slash (url basePath : JStr)
    (h : needsBasePath url basePath = true) : (['/'] : JStr).isPrefixOf url = true := by
  unfold needsBasePath at h
  split_ifs at h <;> simp_all

theorem isPrefixOf_basePathSlash_append (basePath href : JStr)
    (h : (['/'] : JStr).isPrefixOf href = true) :
    (basePath ++ ['/']).isPrefixOf (basePath ++ href) = true := by
  rw [isPrefixOf_iff_exists] at h ⊢
  obtain ⟨t, ht⟩ := h
  exact ⟨t, by rw [List.append_assoc, ht]⟩

theorem shouldPrependBasePath_prefixed_false (x basePath : JStr)
    (h : (basePath ++ ['/']).isPrefixOf x = true) :
    shouldPrependBasePath x basePath = false := by
  unfold shouldPrependBasePath
  split_ifs <;> simp_all

theorem needsBasePath_prefixed_false (x basePath : JStr)
    (h : (basePath ++ ['/']).isPrefixOf x = true) : needsBasePath x basePath = false := by
  unfold needsBasePath
  split_ifs <;> simp_all

/-- Claim C7: with a nonempty base path, rewriting an already-rewritten value
`basePath ++ href` a second time is a no-op for both the navigation rewriter
(the guarded `shouldPrependBasePath`/`prependBasePath` rewrite) and the fetch
rewriter (the guarded `needsBasePath` rewrite): the base path is never
double-prepended. -/
theorem claim_C7_rewrite_idempotent (basePath href : JStr) (hb : basePath ≠ []) :
    (shouldPrependBasePath href basePath = true →
      rewriteNavHref (prependBasePath href basePath) basePath =
        prependBasePath href basePath) ∧
    (needsBasePath href basePath = true →
      transformStringUrl basePath (basePath ++ href) = basePath ++ href) := by
  constructor
  · intro h
    have hslash := shouldPrependBasePath_true_slash href basePath h
    have hpref := isPrefixOf_basePathSlash_append basePath href hslash
    have hfalse := shouldPrependBasePath_prefixed_false (basePath ++ href) basePath hpref
    simp [rewriteNavHref, prependBasePath, hfalse]
  · intro h
    have hslash := needsBasePath_true_slash href basePath h
    have hpref := isPrefixOf_basePathSlash_append basePath href hslash
    have hfalse := needsBasePath_prefixed_false (basePath ++ href) basePath hpref
    simp [transformStringUrl, hfalse]

theorem claim_C7_witness :
    rewriteNavHref (prependBasePath (jstr ("/a")) (jstr ("/p"))) (jstr ("/p")) =
      prependBasePath (jstr ("/a")) (jstr ("/p")) ∧
    transformStringUrl (jstr ("/p")) (jstr ("/p") ++ jstr ("/a")) =
      jstr ("/p") ++ jstr ("/a") := by
  have h := claim_C7_rewrite_idempotent (jstr ("/p")) (jstr ("/a")) (by decide)
  exact ⟨h.1 (by decide), h.2 (by decide)⟩

/-- Claim C8: `convertToRelativeRedirect` returns its input response unchanged
whenever there is no `Location` header, or the status is outside `[300, 400)`,
or parsing the location throws; and whenever it returns the 200 self-resolving
document, the response had a parseable `Location` with a 3xx status, and the
document's target is the parsed pathname plus search. -/
theorem claim_C8_convert_guards {B : Type} (parseURL : JStr → Option UrlParts)
    (response : HttpResponse B) :
    ((response.location = none ∨ response.status < 300 ∨ 400 ≤ response.status ∨
        (∃ l, response.location = some l ∧ parseURL l = none)) →
      convertToRelativeRedirect parseURL response = GateResult.raw response) ∧
    (∀ d, convertToRelativeRedirect parseURL response = GateResult.doc d →
      ∃ l, response.location = some l ∧ 300 ≤ response.status ∧ response.status < 400 ∧
        ∃ u, parseURL l = some u ∧
          d = ⟨200, u.pathname ++ u.search, false⟩) := by
  constructor
  · intro h
    cases hl : response.location with
    | none => simp [convertToRelativeRedirect, hl]
    | some l =>
      simp only [convertToRelativeRedirect, hl]
      by_cases hle : l = []
      · rw [if_pos hle]
      · rw [if_neg hle]
        rcases h with h0 | hs | hs | ⟨l', hl', hp⟩
        · rw [hl] at h0
          exact absurd h0 (by simp)
        · rw [if_pos (Or.inl hs)]
        · rw [if_pos (Or.inr hs)]
        · rw [hl] at hl'
          injection hl' with he
          subst he
          by_cases hst : response.status < 300 ∨ 400 ≤ response.status
          · rw [if_pos hst]
          · rw [if_neg hst, hp]
  · intro d hd
    cases hl : response.location with
    | none =>
      simp only [convertToRelativeRedirect, hl] at hd
      exact absurd hd (by simp)
    | some l =>
      simp only [convertToRelativeRedirect, hl] at hd
      by_cases hle : l = []
      · rw [if_pos hle] at hd
        exact absurd hd (by simp)
      · rw [if_neg hle] at hd
        by_cases hst : response.status < 300 ∨ 400 ≤ response.status
        · rw [if_pos hst] at hd
          exact absurd hd (by simp)
        · rw [if_neg hst] at hd
          push_neg at hst
          cases hp : parseURL l with
          | none =>
            rw [hp] at hd
            exact absurd hd (by simp)
          | some u =>
            rw [hp] at hd
            refine ⟨l, rfl, by omega, by omega, u, hp, ?_⟩
            injection hd with hd'
            exact hd'.symm

theorem claim_C8_witness :
    convertToRelativeRedirect (B := Unit) (fun _ => none)
      (HttpResponse.mk 302 (some (jstr ("/zh-CN/"))) ()) =
      GateResult.raw (HttpResponse.mk 302 (some (jstr ("/zh-CN/"))) ()) :=
  (claim_C8_convert_guards (fun _ => none) (HttpResponse.mk 302 (some (jstr ("/zh-CN/"))) ())).1
    (Or.inr (Or.inr (Or.inr ⟨jstr ("/zh-CN/"), rfl, rfl⟩)))

/-- Claim C10: when the resolved base path is empty, `patchFetchForProxy` and
`patchNavigationForProxy` install no interception: `window.fetch`,
`history.pushState` and `history.replaceState` stay the original functions and
no click listener is added, yet both modules' patched flags become true, so
every subsequent initialization call — for any window state and any resolved
base path — is a no-op. -/
theorem claim_C10_empty_base_no_patch {I R D U Rn : Type}
    (fs : FetchState I R) (ns : NavState D U Rn)
    (hf : fs.isPatched = false) (hn : ns.isPatched = false) :
    (patchFetchForProxy true [] fs).windowFetch = fs.windowFetch ∧
    (patchFetchForProxy true [] fs).isPatched = true ∧
    (∀ (hasWindow : Bool) (resolved : JStr),
      patchFetchForProxy hasWindow resolved (patchFetchForProxy true [] fs) =
        patchFetchForProxy true [] fs) ∧
    (patchNavigationForProxy true [] ns).pushState = ns.pushState ∧
    (patchNavigationForProxy true [] ns).replaceState = ns.replaceState ∧
    (patchNavigationForProxy true [] ns).clickListeners = ns.clickListeners ∧
    (patchNavigationForProxy true [] ns).isPatched = true ∧
    (∀ (hasWindow : Bool) (resolved : JStr),
      patchNavigationForProxy hasWindow resolved (patchNavigationForProxy true [] ns) =
        patchNavigationForProxy true [] ns) := by
  have hfs : patchFetchForProxy true [] fs =
      { fs with isPatched := true, cachedBasePath := some [] } := by
    simp [patchFetchForProxy, hf]
  have hns : patchNavigationForProxy true [] ns = { ns with isPatched := true } := by
    simp [patchNavigationForProxy, hn]
  refine ⟨by rw [hfs], by rw [hfs], ?_, by rw [hns], by rw [hns], by rw [hns], by rw [hns], ?_⟩
  · intro hasWindow resolved
    rw [hfs]
    simp [patchFetchForProxy]
  · intro hasWindow resolved
    rw [hns]
    simp [patchNavigationForProxy]

theorem claim_C10_witness :
    (patchFetchForProxy true [] witnessFetchState).windowFetch =
      witnessFetchState.windowFetch ∧
    (patchFetchForProxy true [] witnessFetchState).isPatched = true ∧
    patchFetchForProxy true (jstr ("/p")) (patchFetchForProxy true [] witnessFetchState) =
      patchFetchForProxy true [] witnessFetchState ∧
    (patchNavigationForProxy true [] witnessNavState).pushState =
      witnessNavState.pushState ∧
    (patchNavigationForProxy true [] witnessNavState).clickListeners =
      witnessNavState.clickListeners ∧
    patchNavigationForProxy true (jstr ("/p"))
        (patchNavigationForProxy true [] witnessNavState) =
      patchNavigationForProxy true [] witnessNavState := by
  have h := claim_C10_empty_base_no_patch witnessFetchState witnessNavState rfl rfl
  exact ⟨h.1, h.2.1, h.2.2.1 true (jstr ("/p")), h.2.2.2.1, h.2.2.2.2.2.1,
    h.2.2.2.2.2.2.2 true (jstr ("/p"))⟩

theorem formEncode_from : formEncode (jstr ("from")) = jstr ("from") := by decide

theorem intercalate_singleton (x : JStr) : List.intercalate ['&'] [x] = x := by
  simp [List.intercalate]

theorem urlSearchParamsToString_login (stripped : JStr) :
    urlSearchParamsToString (loginSearchParams stripped) =
      jstr ("from=") ++ formEncode (if stripped = [] then jstr ("/dashboard") else stripped) := by
  unfold urlSearchParamsToString loginSearchParams
  simp only [List.map_cons, List.map_nil]
  rw [intercalate_singleton, formEncode_from]
  rw [show jstr ("from=") = jstr ("from") ++ ['='] by decide]
  rw [List.append_assoc, List.singleton_append]

theorem loginParams_ne_nil (stripped : JStr) :
    urlSearchParamsToString (loginSearchParams stripped) ≠ [] := by
  rw [urlSearchParamsToString_login]
  intro hcontra
  exact absurd (List.append_eq_nil.mp hcontra).1 (by decide)

theorem createRelativeRedirect_login (targetPath stripped : JStr) :
    createRelativeRedirect targetPath (some (loginSearchParams stripped)) =
      ⟨200, targetPath ++ '?' :: (jstr ("from=") ++
        formEncode (if stripped = [] then jstr ("/dashboard") else stripped)), false⟩ := by
  show RedirectDocument.mk 200
      (if urlSearchParamsToString (loginSearchParams stripped) ≠ [] then
        targetPath ++ '?' :: urlSearchParamsToString (loginSearchParams stripped)
      else targetPath) false = _
  rw [if_pos (loginParams_ne_nil stripped), urlSearchParamsToString_login]

/-- The gate's response to an authentication-failing request to a protected
path: a 200 self-resolving redirect document targeting
`/<locale>/login?from=<encoded stripped path, or /dashboard when empty>`,
clearing the `auth-token` cookie exactly when a cookie was present. -/
theorem proxyHandler_authfail {S B : Type} (validateKey : JStr → Bool → Option S)
    (parseURL : JStr → Option UrlParts) (localeResponse : HttpResponse B)
    (defaultLocale pathname : JStr) (authToken : Option JStr)
    (h1 : API_PROXY_PATH.isPrefixOf pathname = false)
    (h2 : (jstr ("/_next")).isPrefixOf pathname = false)
    (h3 : pathname ≠ jstr ("/favicon.ico"))
    (h4 : isPublicPath (pathWithoutLocale pathname) = false)
    (h5 : authToken = none ∨ ∃ t, authToken = some t ∧
      validateKey t (isReadOnlyPath (pathWithoutLocale pathname)) = none) :
    proxyHandler validateKey parseURL localeResponse defaultLocale pathname authToken =
      GateResult.doc ⟨200,
        ('/' :: (requestLocale defaultLocale pathname ++ jstr ("/login"))) ++
          '?' :: (jstr ("from=") ++
            formEncode (if pathWithoutLocale pathname = [] then jstr ("/dashboard")
              else pathWithoutLocale pathname)),
        authToken.isSome⟩ := by
  have hbeq : (pathname == jstr ("/favicon.ico")) = false := by
    simpa using h3
  have henc := urlSearchParamsToString_login (pathWithoutLocale pathname)
  have hne := loginParams_ne_nil (pathWithoutLocale pathname)
  rcases h5 with rfl | ⟨t, rfl, hv⟩
  · unfold proxyHandler
    rw [if_neg (by simp [h1])]
    rw [if_neg (by simp [h2, hbeq])]
    rw [if_neg (by simp [h4])]
    show GateResult.doc (createRelativeRedirect
        ('/' :: (requestLocale defaultLocale pathname ++ jstr ("/login")))
        (some (loginSearchParams (pathWithoutLocale pathname)))) = _
    rw [createRelativeRedirect_login]
    rfl
  · unfold proxyHandler
    rw [if_neg (by simp [h1])]
    rw [if_neg (by simp [h2, hbeq])]
    rw [if_neg (by simp [h4])]
    show (match validateKey t (isReadOnlyPath (pathWithoutLocale pathname)) with
      | none => GateResult.doc ⟨200,
          ('/' :: (requestLocale defaultLocale pathname ++ jstr ("/login"))) ++
            '?' :: urlSearchParamsToString (loginSearchParams (pathWithoutLocale pathname)),
          true⟩
      | some _ => convertToRelativeRedirect parseURL localeResponse) = _
    rw [hv, henc]
    rfl

/-- Claim C1 (counterexample): `/zh-CN` is a protected path (not public, not
`/v1`, not a static asset) whose locale-stripped path is empty; for an
unauthenticated request the gate's embedded target is
`/zh-CN/login?from=%2Fdashboard`, not `/zh-CN/login?from=` as the claim's
`from=<locale-stripped path>` prescribes. -/
theorem claim_C1_counterexample :
    @proxyHandler Unit Unit (fun _ _ => none) (fun _ => none)
      (HttpResponse.mk 200 none ()) (jstr ("en")) (jstr ("/zh-CN")) none =
      GateResult.doc ⟨200, jstr ("/zh-CN/login?from=%2Fdashboard"), false⟩ ∧
    jstr ("/zh-CN/login?from=%2Fdashboard") ≠ jstr ("/zh-CN/login?from=") := by
  decide

/-- Claim C1 (amended): for every authentication-failing request (missing
cookie, or present cookie rejected by the Session Validator) to a protected
path, the gate returns an HTTP 200 self-resolving redirect document whose
embedded target is `/<locale>/login?from=<urlencoded locale-stripped path,
defaulting to /dashboard when that path is empty>`, and the response clears
the `auth-token` cookie if and only if the cookie was present (invalid
token), never when it was absent. -/
theorem claim_C1_login_redirect {S B : Type} (validateKey : JStr → Bool → Option S)
    (parseURL : JStr → Option UrlParts) (localeResponse : HttpResponse B)
    (defaultLocale pathname : JStr) (authToken : Option JStr)
    (h1 : API_PROXY_PATH.isPrefixOf pathname = false)
    (h2 : (jstr ("/_next")).isPrefixOf pathname = false)
    (h3 : pathname ≠ jstr ("/favicon.ico"))
    (h4 : isPublicPath (pathWithoutLocale pathname) = false)
    (h5 : authToken = none ∨ ∃ t, authToken = some t ∧
      validateKey t (isReadOnlyPath (pathWithoutLocale pathname)) = none) :
    proxyHandler validateKey parseURL localeResponse defaultLocale pathname authToken =
      GateResult.doc ⟨200,
        ('/' :: (requestLocale defaultLocale pathname ++ jstr ("/login"))) ++
          '?' :: (jstr ("from=") ++
            formEncode (if pathWithoutLocale pathname = [] then jstr ("/dashboard")
              else pathWithoutLocale pathname)),
        authToken.isSome⟩ :=
  proxyHandler_authfail validateKey parseURL localeResponse defaultLocale pathname authToken
    h1 h2 h3 h4 h5

theorem claim_C1_witness :
    @proxyHandler Unit Unit (fun _ _ => none) (fun _ => none)
      (HttpResponse.mk 200 none ()) (jstr ("en")) (jstr ("/zh-TW/dashboard"))
      (some (jstr ("token"))) =
      GateResult.doc ⟨200, jstr ("/zh-TW/login?from=%2Fdashboard"), true⟩ := by
  have h := @claim_C1_login_redirect Unit Unit (fun _ _ => none) (fun _ => none)
    (HttpResponse.mk 200 none ()) (jstr ("en")) (jstr ("/zh-TW/dashboard"))
    (some (jstr ("token"))) (by decide) (by decide) (by decide) (by decide)
    (Or.inr ⟨jstr ("token"), rfl, rfl⟩)
  exact h.trans (by decide)

/-- Claim C9: for an authentication-failing protected request whose
locale-stripped path is empty, the login redirect's `from` parameter is
`/dashboard` (form-encoded); for a non-empty locale-stripped path, `from` is
that path itself (form-encoded). -/
theorem claim_C9_from_parameter {S B : Type} (validateKey : JStr → Bool → Option S)
    (parseURL : JStr → Option UrlParts) (localeResponse : HttpResponse B)
    (defaultLocale pathname : JStr) (authToken : Option JStr)
    (h1 : API_PROXY_PATH.isPrefixOf pathname = false)
    (h2 : (jstr ("/_next")).isPrefixOf pathname = false)
    (h3 : pathname ≠ jstr ("/favicon.ico"))
    (h4 : isPublicPath (pathWithoutLocale pathname) = false)
    (h5 : authToken = none ∨ ∃ t, authToken = some t ∧
      validateKey t (isReadOnlyPath (pathWithoutLocale pathname)) = none) :
    (pathWithoutLocale pathname = [] →
      proxyHandler validateKey parseURL localeResponse defaultLocale pathname authToken =
        GateResult.doc ⟨200,
          ('/' :: (requestLocale defaultLocale pathname ++ jstr ("/login"))) ++
            '?' :: (jstr ("from=") ++ formEncode (jstr ("/dashboard"))),
          authToken.isSome⟩) ∧
    (pathWithoutLocale pathname ≠ [] →
      proxyHandler validateKey parseURL localeResponse defaultLocale pathname authToken =
        GateResult.doc ⟨200,
          ('/' :: (requestLocale defaultLocale pathname ++ jstr ("/login"))) ++
            '?' :: (jstr ("from=") ++ formEncode (pathWithoutLocale pathname)),
          authToken.isSome⟩) := by
  have h := proxyHandler_authfail validateKey parseURL localeResponse defaultLocale pathname
    authToken h1 h2 h3 h4 h5
  constructor
  · intro he
    rw [h, if_pos he]
  · intro he
    rw [h, if_neg he]

theorem claim_C9_witness :
    @proxyHandler Unit Unit (fun _ _ => none) (fun _ => none)
      (HttpResponse.mk 200 none ()) (jstr ("en")) (jstr ("/zh-CN/")) none =
      GateResult.doc ⟨200, jstr ("/zh-CN/login?from=%2F"), false⟩ ∧
    @proxyHandler Unit Unit (fun _ _ => none) (fun _ => none)
      (HttpResponse.mk 200 none ()) (jstr ("en")) (jstr ("/ja")) none =
      GateResult.doc ⟨200, jstr ("/ja/login?from=%2Fdashboard"), false⟩ := by
  constructor
  · have h := @claim_C9_from_parameter Unit Unit (fun _ _ => none) (fun _ => none)
      (HttpResponse.mk 200 none ()) (jstr ("en")) (jstr ("/zh-CN/")) none
      (by decide) (by decide) (by decide) (by decide) (Or.inl rfl)
    exact (h.2 (by decide)).trans (by decide)
  · have h := @claim_C9_from_parameter Unit Unit (fun _ _ => none) (fun _ => none)
      (HttpResponse.mk 200 none ()) (jstr ("en")) (jstr ("/ja")) none
      (by decide) (by decide) (by decide) (by decide) (Or.inl rfl)
    exact (h.1 (by decide)).trans (by decide)

end Hub
